import Mathlib

/-!
Verification of the mobile-alerts-grafana core scripts: a shallow embedding
of `fetcher/main.py`, `fetcher/healthcheck.py` and `room_sync/sync.py`,
with theorems settling the specified properties of ingestion, the staleness
probe and the association syncer.
-/

/-- Python truthiness of an optional string value: `None` and `""` are falsy
(used by `not sensor_id` in `sync.py` and `not DB_NAME` in `healthcheck.py`). -/
def falsyStr : Option String → Bool
  | none => true
  | some s => s == ""

namespace PyStr

/-- The characters Python's `str.strip()` removes on ASCII input:
space, tab, newline, carriage return, vertical tab (0x0B), form feed (0x0C). -/
def isSpace (c : Char) : Bool :=
  c == ' ' || c == '\t' || c == '\n' || c == '\r' || c == Char.ofNat 11 || c == Char.ofNat 12

/-- Python `value.split(",")` on a character list: split at every comma,
keeping empty segments; the empty string yields one empty segment. -/
def splitComma : List Char → List (List Char)
  | [] => [[]]
  | c :: rest =>
    if c == ',' then [] :: splitComma rest
    else
      match splitComma rest with
      | seg :: segs => (c :: seg) :: segs
      | [] => [[c]]

/-- Python `seg.strip()`: drop leading and trailing whitespace. -/
def strip (s : List Char) : List Char :=
  ((s.dropWhile isSpace).reverse.dropWhile isSpace).reverse

/-- `parse_sensor_ids` (`fetcher/main.py` lines 181-184): a falsy (empty)
env value yields `[]`; otherwise split on commas, strip each segment, and
keep only the truthy (non-empty) stripped segments. -/
def parse_sensor_ids (env_value : List Char) : List (List Char) :=
  if env_value == [] then []
  else ((splitComma env_value).map strip).filter (fun s => !s.isEmpty)

/-- `parse_sensor_ids` of `fetcher/healthcheck.py` lines 28-31, embedded
separately: its body is textually identical to the fetcher's. -/
def healthcheck_parse_sensor_ids (env_value : List Char) : List (List Char) :=
  if env_value == [] then []
  else ((splitComma env_value).map strip).filter (fun s => !s.isEmpty)

end PyStr

namespace RoomSync

/-- A validated association entry, also a row of the `room_assoc` table
(`sync.py`: output dicts of `load_config`, columns of the insert). -/
structure AssocEntry where
  sensor_id : String
  room_id : String
  start_date : Option String
  end_date : Option String
deriving DecidableEq, Repr

/-- One list item under the `associations` key as `load_config` sees it:
either not a mapping, or a mapping whose four relevant keys are each absent
(`none`) or present with a possibly falsy string value. -/
inductive YamlItem where
  | notMapping : YamlItem
  | mapping (sensor_id room_id start_date end_date : Option String) : YamlItem
deriving DecidableEq, Repr

/-- A parsed YAML document as `load_config` receives it from `yaml.safe_load`:
`falsy` models any Python-falsy parse result (`None` for an empty file, `{}`,
...), `doc assocs` a truthy mapping whose `associations` key holds `assocs`
(`none` when the key is absent). -/
inductive ConfigDoc where
  | falsy : ConfigDoc
  | doc (associations : Option (List YamlItem)) : ConfigDoc
deriving DecidableEq, Repr

/-- An item the validation loop of `load_config` rejects: not a mapping, or
a falsy `sensor_id` or `room_id`. -/
def badItem : YamlItem → Bool
  | YamlItem.notMapping => true
  | YamlItem.mapping sid rid _ _ => falsyStr sid || falsyStr rid

/-- The validation loop of `load_config` (`sync.py` lines 53-68): items are
checked in order and the first invalid one raises `ValueError`. -/
def validateItems : List YamlItem → Except String (List AssocEntry)
  | [] => Except.ok []
  | YamlItem.notMapping :: _ => Except.error "association is not a mapping"
  | YamlItem.mapping sid rid sd ed :: rest =>
    if falsyStr sid || falsyStr rid then
      Except.error "association missing sensor_id or room_id"
    else
      match validateItems rest with
      | Except.error e => Except.error e
      | Except.ok out => Except.ok (⟨sid.getD "", rid.getD "", sd, ed⟩ :: out)

/-- `load_config` (`sync.py` lines 41-70) on the parsed document: a falsy
parse result returns `[]` (the `if not data` guard); a truthy document must
carry the `associations` key, and every listed item must validate. -/
def load_config : ConfigDoc → Except String (List AssocEntry)
  | ConfigDoc.falsy => Except.ok []
  | ConfigDoc.doc none =>
    Except.error "YAML config must contain top-level key 'associations'"
  | ConfigDoc.doc (some items) => validateItems items

/-- The statements `sync_to_db` executes, labelled for fault injection
(`sync.py` lines 101-131; `conn.commit()` is a step of its own). -/
inductive SyncStep where
  | createTable | createIdxSensor | createIdxRoom | truncate | bulkInsert | commit
deriving DecidableEq, Repr

/-- Effect of one in-transaction statement on the pending (uncommitted)
contents of `room_assoc`; the three DDL statements leave the rows unchanged. -/
def stepEffect (entries : List AssocEntry) : SyncStep → List AssocEntry → List AssocEntry
  | SyncStep.truncate, _ => []
  | SyncStep.bulkInsert, pending => pending ++ entries
  | _, pending => pending

/-- The in-transaction statement sequence of `sync_to_db`: schema DDL, then
`TRUNCATE`, then a bulk insert only when `entries` is non-empty
(`sync.py` lines 101-130). -/
def syncStmts (entries : List AssocEntry) : List SyncStep :=
  [SyncStep.createTable, SyncStep.createIdxSensor, SyncStep.createIdxRoom, SyncStep.truncate]
    ++ (if entries.isEmpty then [] else [SyncStep.bulkInsert])

/-- Run the in-transaction statements over the pending table contents; a
statement raises exactly when it is the injected fault. -/
def runStmts (fault : Option SyncStep) (entries : List AssocEntry) :
    List SyncStep → List AssocEntry → Except Unit (List AssocEntry)
  | [], pending => Except.ok pending
  | s :: rest, pending =>
    if fault = some s then Except.error ()
    else runStmts fault entries rest (stepEffect entries s pending)

/-- `sync_to_db` (`sync.py` lines 95-138) after a connection is obtained,
with at most one injected fault: the connection has `autocommit = False`, so
the committed table only changes at `conn.commit()`; any exception triggers
`conn.rollback()` and is re-raised. Returns the propagated outcome and the
committed contents of `room_assoc` afterwards. -/
def sync_to_db (fault : Option SyncStep) (init entries : List AssocEntry) :
    Except Unit Unit × List AssocEntry :=
  match runStmts fault entries (syncStmts entries) init with
  | Except.error () => (Except.error (), init)
  | Except.ok pending =>
    if fault = some SyncStep.commit then (Except.error (), init)
    else (Except.ok (), pending)

/-- The config-to-database portion of the syncer's `main` (`sync.py` lines
157-168): a parse/validation error exits 3 before `sync_to_db` runs; a sync
failure exits 4; success exits 0. Returns the exit code and the committed
table contents afterwards. -/
def mainSync (doc : ConfigDoc) (fault : Option SyncStep) (init : List AssocEntry) :
    Nat × List AssocEntry :=
  match load_config doc with
  | Except.error _ => (3, init)
  | Except.ok entries =>
    match sync_to_db fault init entries with
    | (Except.error (), table) => (4, table)
    | (Except.ok (), table) => (0, table)

/-- `check_env_vars` (`sync.py` lines 34-38): the syncer exits 2 when any of
the three credentials is unset or empty, before any connection attempt. -/
def check_env_vars (dbName dbUser dbPassword : Option String) : Except Nat Unit :=
  if falsyStr dbName || falsyStr dbUser || falsyStr dbPassword then Except.error 2
  else Except.ok ()

/-- Outcome of one `psycopg2.connect` attempt in the syncer: `exc auth` is
any raised exception (the loop catches bare `Exception`), with `auth`
marking an invalid-credential (authentication) failure. -/
inductive SyncConnAttempt where
  | success
  | exc (auth : Bool)
deriving DecidableEq, Repr

/-- The attempt loop of the syncer's `get_db_connection` (`sync.py` lines
75-92): up to the given number of remaining attempts, every exception is
caught and retried; when the last attempt fails, the last exception is
re-raised (its `auth` flag is the error value). `idx` numbers the attempts. -/
def connAttemptLoop (attempts : Nat → SyncConnAttempt) (idx : Nat) :
    Nat → Except Bool Nat
  | 0 => Except.error false
  | 1 =>
    match attempts idx with
    | SyncConnAttempt.success => Except.ok idx
    | SyncConnAttempt.exc auth => Except.error auth
  | n + 2 =>
    match attempts idx with
    | SyncConnAttempt.success => Except.ok idx
    | SyncConnAttempt.exc _ => connAttemptLoop attempts (idx + 1) (n + 1)

/-- The syncer's `get_db_connection` with its default of 12 retries: returns
the index of the first successful attempt, or the `auth` flag of the twelfth
failure. -/
def get_db_connection (attempts : Nat → SyncConnAttempt) : Except Bool Nat :=
  connAttemptLoop attempts 1 12

end RoomSync

namespace Fetcher

/-- A row as `insert_into_db` sends it to the `measurements` hypertable
(`main.py` lines 79-88): the write passes `t1` and `t2` through exactly as
`fetch_data` produced them, and `fetch_data` may pass `None`, so both are
optional here; `time` is epoch seconds of the timezone-aware UTC timestamp. -/
structure Measurement where
  time : Int
  sensor_id : String
  t1 : Option Int
  t2 : Option Int
deriving DecidableEq, Repr

/-- Key collision per the `ON CONFLICT (sensor_id, time)` clause: the stored
row `r` shares the unique key of the incoming row `m`. -/
def keyMatch (m r : Measurement) : Bool :=
  r.sensor_id == m.sensor_id && r.time == m.time

/-- The database executing the insert statement of `insert_into_db`
(`main.py` lines 79-83): `ON CONFLICT (sensor_id, time) DO NOTHING` appends
the row only when no stored row shares its key; a key collision leaves the
table unchanged and raises nothing. -/
def execInsertSql (table : List Measurement) (m : Measurement) : List Measurement :=
  if table.any (keyMatch m) then table else table ++ [m]

/-- The module-level `_conn` handle plus a supply of fresh handles: each
`psycopg2.connect` call yields the generation `nextGen` (`main.py`, the
`_conn` global and `get_db_connection`). -/
structure ConnState where
  conn : Option Nat
  nextGen : Nat
deriving DecidableEq, Repr

/-- `get_db_connection` (`main.py` lines 34-60) while the store accepts
connections: reuse the live stored handle if present, otherwise connect,
obtaining a fresh generation, and store it. Its internal retry loop never
returns a failure. -/
def get_db_connection (st : ConnState) : Nat × ConnState :=
  match st.conn with
  | some c => (c, st)
  | none => (st.nextGen, ⟨some st.nextGen, st.nextGen + 1⟩)

/-- Outcome of one `cur.execute` of the insert statement (`main.py` line 88
or 102): success, a connectivity-class failure (`OperationalError` or
`InterfaceError`), or any other exception. -/
inductive ExecResult where
  | ok | connError | otherError
deriving DecidableEq, Repr

/-- What one call of `insert_into_db` did: the connection generation serving
each execute attempt in order, whether an exception propagated to the
caller, and the final `_conn` state. -/
structure InsertTrace where
  attempts : List Nat
  raised : Bool
  final : ConnState
deriving DecidableEq, Repr

/-- `insert_into_db` (`main.py` lines 63-102) with the outcome of each
execute attempt injected: a connectivity-class failure of the first attempt
is caught, `_conn` is closed and discarded, a connection is re-acquired and
the same insert retried exactly once; any failure of that second attempt
propagates, as does a non-connectivity failure of the first. -/
def insert_into_db (st : ConnState) (first second : ExecResult) : InsertTrace :=
  let (c1, st1) := get_db_connection st
  match first with
  | ExecResult.ok => ⟨[c1], false, st1⟩
  | ExecResult.otherError => ⟨[c1], true, st1⟩
  | ExecResult.connError =>
    let st2 : ConnState := ⟨none, st1.nextGen⟩
    let (c2, st3) := get_db_connection st2
    match second with
    | ExecResult.ok => ⟨[c1, c2], false, st3⟩
    | _ => ⟨[c1, c2], true, st3⟩

/-- Outcome of one `psycopg2.connect` attempt in the fetcher's
`get_db_connection`: psycopg2 signals both an unreachable server and invalid
credentials as `OperationalError`; `auth` records which kind the failure
was. -/
inductive ConnAttempt where
  | success
  | opError (auth : Bool)
deriving DecidableEq, Repr

/-- The retry loop of the fetcher's `get_db_connection` (`main.py` lines
44-60) when no live handle exists, driven by the outcomes of successive
connect attempts: every `OperationalError` — authentication failures
included — is caught and retried after 5 s; the loop ends only on success.
Returns the number of attempts consumed, or `none` when no listed attempt
succeeds (the loop is still running). -/
def connectLoop : List ConnAttempt → Option Nat
  | [] => none
  | ConnAttempt.success :: _ => some 1
  | ConnAttempt.opError _ :: rest => (connectLoop rest).map (· + 1)

/-- The `measurement` sub-object of a device (`main.py` lines 162-169):
every field is read with `.get`, so each is optional. -/
structure DeviceMeasurement where
  ts : Option Int
  t1 : Option Int
  t2 : Option Int
deriving DecidableEq, Repr

/-- One element of the response's `devices` list. `measurement = none`
models a device object without a `measurement` key; `device.get
("measurement", {})` then yields the empty dict, i.e. all fields absent. -/
structure Device where
  deviceid : Option String
  measurement : Option DeviceMeasurement
deriving DecidableEq, Repr

/-- The empty-dict default of `device.get("measurement", {})`. -/
def emptyMeasurement : DeviceMeasurement := ⟨none, none, none⟩

/-- One iteration of the device loop of `fetch_data` (`main.py` lines
159-176); `insertRaises` says whether the `insert_into_db` call for this
device raises (e.g. both of its attempts fail). `none` means the device was
skipped or its exception was caught by the per-device handler; `some m`
means the measurement was inserted (and counted). -/
def processDevice (insertRaises : Bool) (d : Device) : Option Measurement :=
  let m := d.measurement.getD emptyMeasurement
  match d.deviceid, m.ts with
  | some dev_id, some ts_unix =>
    match m.t1, m.t2 with
    | none, none => none
    | t1, t2 => if insertRaises then none else some ⟨ts_unix, dev_id, t1, t2⟩
  | _, _ => none

/-- The device loop of `fetch_data`: devices are processed independently in
order; `insertRaises i` injects an exception into the i-th device's insert,
which the per-device `except` catches before moving on. Returns the inserted
measurements in order. -/
def deviceLoop (insertRaises : Nat → Bool) : Nat → List Device → List Measurement
  | _, [] => []
  | i, d :: rest =>
    match processDevice (insertRaises i) d with
    | some m => m :: deviceLoop insertRaises (i + 1) rest
    | none => deviceLoop insertRaises (i + 1) rest

/-- The parsed JSON body of a 200 response. `otherKeys` records whether the
dict carries keys besides `success` and `devices`, so that Python dict
truthiness (the `if not data` guard) is modelled exactly. -/
structure ApiBody where
  success : Option Bool
  devices : Option (List Device)
  otherKeys : Bool
deriving Repr

/-- Python truthiness of the parsed body: a dict is truthy iff non-empty. -/
def ApiBody.truthy (b : ApiBody) : Bool :=
  b.success.isSome || b.devices.isSome || b.otherKeys

/-- Outcome of the single `requests.post` of `_fetch_latest_measurements`:
a `RequestException` (timeout, DNS failure, connection error, ...) or a
response with a status code and a parsed JSON body. -/
inductive HttpOutcome where
  | requestException
  | response (status : Nat) (body : ApiBody)

/-- `_fetch_latest_measurements` (`main.py` lines 105-127): no sensors → no
request at all; otherwise exactly one POST; `None` on a request exception or
a non-200 status. Returns the parsed body (if any) and the number of
outbound HTTP requests issued. -/
def fetchLatestMeasurements (sensor_ids : List String) (http : HttpOutcome) :
    Option ApiBody × Nat :=
  if sensor_ids.isEmpty then (none, 0)
  else
    match http with
    | HttpOutcome.requestException => (none, 1)
    | HttpOutcome.response status body =>
      if status ≠ 200 then (none, 1) else (some body, 1)

/-- Result of one `fetch_data` cycle: HTTP requests issued, measurements
inserted through `insert_into_db`, and whether an exception escaped to the
caller. -/
structure CycleResult where
  requests : Nat
  inserted : List Measurement
  raised : Bool
deriving Repr

/-- `fetch_data` (`main.py` lines 135-178). Every failure path before the
device loop is a plain `return`, and the device loop catches every
per-device exception, so `raised` is `false` on all paths. -/
def fetch_data (sensor_ids : List String) (http : HttpOutcome)
    (insertRaises : Nat → Bool) : CycleResult :=
  match fetchLatestMeasurements sensor_ids http with
  | (none, reqs) => ⟨reqs, [], false⟩
  | (some body, reqs) =>
    if !body.truthy then ⟨reqs, [], false⟩
    else if body.success ≠ some true then ⟨reqs, [], false⟩
    else
      match body.devices.getD [] with
      | [] => ⟨reqs, [], false⟩
      | d :: devices => ⟨reqs, deviceLoop insertRaises 0 (d :: devices), false⟩

end Fetcher

namespace Healthcheck

/-- The `MAX(time)` value the probe reads for one sensor: the timestamp's
wall-clock reading in seconds since epoch, and whether it carried timezone
information. `replace(tzinfo=timezone.utc)` on a naive value keeps the
wall-clock reading, so interpreting a naive timestamp as UTC leaves `val`
unchanged. -/
structure LastTs where
  val : Int
  aware : Bool
deriving DecidableEq, Repr

/-- The timestamp after the naive-to-UTC normalization of `healthcheck.py`
lines 79-80, as an absolute UTC instant in epoch seconds. -/
def toUtcVal (t : LastTs) : Int := t.val

/-- `THRESHOLD_MINUTES = 30`, converted to seconds. -/
def thresholdSeconds : Int := 30 * 60

/-- The per-sensor loop of the probe's `main` (`healthcheck.py` lines
67-87): count sensors whose latest reading is at most the threshold old; a
sensor with no rows (`MAX(time)` returns NULL) is treated as stale. -/
def recentCount (latest : String → Option LastTs) (now : Int) :
    List String → Nat
  | [] => 0
  | s :: rest =>
    match latest s with
    | none => recentCount latest now rest
    | some t =>
      if now - toUtcVal t ≤ thresholdSeconds then recentCount latest now rest + 1
      else recentCount latest now rest

/-- The probe's `main` (`healthcheck.py` lines 56-92) once a DB connection
would be available: with no configured sensors it exits 0 before connecting
or querying; otherwise it issues one `MAX(time)` query per sensor and exits
0 iff at least one sensor is recent. Returns the exit code and the number of
queries issued. -/
def probeMain (sensors : List String) (latest : String → Option LastTs)
    (now : Int) : Nat × Nat :=
  if sensors.isEmpty then (0, 0)
  else if recentCount latest now sensors > 0 then (0, sensors.length)
  else (1, sensors.length)

/-- `connect_db` of the probe (`healthcheck.py` lines 41-54), given which
credentials are set and the outcome of the single connect attempt:
`Sum.inl code` models `sys.exit(code)`, `Sum.inr ()` a returned connection.
The second component counts connect attempts made. -/
def connect_db (dbName dbUser dbPassword : Option String)
    (attempt : Fetcher.ConnAttempt) : (Nat ⊕ Unit) × Nat :=
  if falsyStr dbName || falsyStr dbUser || falsyStr dbPassword then (Sum.inl 1, 0)
  else
    match attempt with
    | Fetcher.ConnAttempt.success => (Sum.inr (), 1)
    | Fetcher.ConnAttempt.opError _ => (Sum.inl 1, 1)

end Healthcheck

namespace RoomSync

/-- Helper: a list containing an invalid item makes the validation loop of
`load_config` raise. -/
theorem validateItems_error_of_bad (items : List YamlItem)
    (h : ∃ i ∈ items, badItem i = true) :
    ∃ e, validateItems items = Except.error e := by
  induction items with
  | nil => rcases h with ⟨i, hi, _⟩; cases hi
  | cons a rest ih =>
    cases a with
    | notMapping => exact ⟨"association is not a mapping", rfl⟩
    | mapping sid rid sd ed =>
      by_cases hbad : (falsyStr sid || falsyStr rid) = true
      · exact ⟨"association missing sensor_id or room_id", by simp [validateItems, hbad]⟩
      · have hrest : ∃ i ∈ rest, badItem i = true := by
          rcases h with ⟨i, hi, hb⟩
          rcases List.mem_cons.mp hi with rfl | hi
          · exact absurd hb (by simpa [badItem] using hbad)
          · exact ⟨i, hi, hb⟩
        obtain ⟨e, he⟩ := ih hrest
        exact ⟨e, by simp [validateItems, hbad, he]⟩

/-- C1: association sync is all-or-nothing. With no fault injected,
`sync_to_db` succeeds and the committed `room_assoc` contents equal exactly
the entry list (empty input empties the table); whenever an exception occurs
at any executed statement (schema creation, truncate, bulk insert, or
commit), the transaction is rolled back — the table keeps exactly its
pre-sync contents — and the exception propagates to the caller. -/
theorem sync_all_or_nothing (fault : Option SyncStep) (init entries : List AssocEntry) :
    (fault = none → sync_to_db fault init entries = (Except.ok (), entries))
    ∧ ((sync_to_db fault init entries).1 = Except.error () →
        (sync_to_db fault init entries).2 = init)
    ∧ ((sync_to_db fault init entries).1 = Except.ok () →
        (sync_to_db fault init entries).2 = entries)
    ∧ (∀ s, fault = some s → s ∈ syncStmts entries ++ [SyncStep.commit] →
        (sync_to_db fault init entries).1 = Except.error ()) := by
  rcases fault with _ | s
  · cases entries <;>
      simp [sync_to_db, syncStmts, runStmts, stepEffect]
  · cases s <;> cases entries <;>
      simp [sync_to_db, syncStmts, runStmts, stepEffect]

/-- C8 counterexample: the parsed document `{}` (and likewise an empty file,
whose parse result is `None`) has no top-level `associations` key, yet
`load_config` returns the empty list instead of raising a validation error,
and the syncer then proceeds to the database and authoritatively empties the
`room_assoc` table (exit 0), rather than leaving it untouched. -/
theorem falsy_doc_not_error :
    load_config ConfigDoc.falsy = Except.ok []
    ∧ mainSync ConfigDoc.falsy none [⟨"0123456789AB", "living-room", none, none⟩]
        = (0, []) := by
  constructor <;> rfl

/-- C8 (amended): if the parsed document is truthy and lacks the
`associations` key, or any listed entry is not a mapping or has a missing
(or falsy) `sensor_id` or `room_id`, `load_config` raises a validation
error and `main` exits 3 before any database interaction, leaving the table
untouched; a falsy parse result (empty file, `{}`), however, yields the
empty entry list instead of an error. -/
theorem load_config_validation_amended (items : List YamlItem)
    (fault : Option SyncStep) (init : List AssocEntry) :
    (∃ e, load_config (ConfigDoc.doc none) = Except.error e)
    ∧ mainSync (ConfigDoc.doc none) fault init = (3, init)
    ∧ ((∃ i ∈ items, badItem i = true) →
        (∃ e, load_config (ConfigDoc.doc (some items)) = Except.error e)
        ∧ mainSync (ConfigDoc.doc (some items)) fault init = (3, init))
    ∧ load_config ConfigDoc.falsy = Except.ok [] := by
  refine ⟨⟨_, rfl⟩, rfl, fun h => ?_, rfl⟩
  obtain ⟨e, he⟩ := validateItems_error_of_bad items h
  exact ⟨⟨e, he⟩, by simp [mainSync, load_config, he]⟩

end RoomSync

namespace Fetcher

/-- C2: measurement ingestion is idempotent on `(sensor_id, time)`. If the
table holds exactly one row with the incoming row's key (the uniqueness
invariant), executing the insert is a silent no-op: the table — including
the originally stored values — is unchanged, and exactly one row with that
key exists afterwards. The `DO NOTHING` branch raises no error. -/
theorem insert_conflict_idempotent (table : List Measurement) (m : Measurement)
    (h : table.countP (keyMatch m) = 1) :
    execInsertSql table m = table
    ∧ (execInsertSql table m).countP (keyMatch m) = 1 := by
  have hex : ∃ r ∈ table, keyMatch m r = true :=
    List.countP_pos_iff.mp (by omega)
  have hany : table.any (keyMatch m) = true := List.any_eq_true.mpr hex
  have heq : execInsertSql table m = table := by
    simp [execInsertSql, hany]
  exact ⟨heq, by rw [heq]; exact h⟩

/-- Witness for C2 at a concrete table: a second reading for sensor `A` at
time 100 with different values collides and is dropped. -/
theorem insert_conflict_idempotent_witness :
    execInsertSql [⟨100, "A", some 20, none⟩] ⟨100, "A", some 21, some 5⟩
        = [⟨100, "A", some 20, none⟩]
    ∧ (execInsertSql [⟨100, "A", some 20, none⟩] ⟨100, "A", some 21, some 5⟩).countP
        (keyMatch ⟨100, "A", some 21, some 5⟩) = 1 :=
  insert_conflict_idempotent [⟨100, "A", some 20, none⟩] ⟨100, "A", some 21, some 5⟩
    (by decide)

/-- C5: on a connectivity-class failure of the first execute,
`insert_into_db` closes and discards the shared handle, acquires a fresh
connection (a different handle), and retries the same insert exactly once;
a second failure propagates to the caller; a successful first attempt means
no retry. The hypothesis is the generation invariant of the handle supply. -/
theorem insert_retry_once (st : ConnState) (first second : ExecResult)
    (hinv : ∀ g, st.conn = some g → g < st.nextGen) :
    (first = ExecResult.ok →
      (insert_into_db st first second).attempts.length = 1
      ∧ (insert_into_db st first second).raised = false)
    ∧ (first = ExecResult.connError →
        ∃ c1 c2, c1 ≠ c2
          ∧ (insert_into_db st first second).attempts = [c1, c2]
          ∧ (insert_into_db st first second).final.conn = some c2
          ∧ (second = ExecResult.ok → (insert_into_db st first second).raised = false)
          ∧ (second ≠ ExecResult.ok → (insert_into_db st first second).raised = true)) := by
  obtain ⟨oc, ng⟩ := st
  cases oc with
  | none =>
    cases first <;> cases second <;>
      simp [insert_into_db, get_db_connection]
  | some g =>
    have hlt : g < ng := hinv g rfl
    cases first <;> cases second <;>
      simp [insert_into_db, get_db_connection] <;> omega

/-- Witness for C5: starting with no stored handle, two consecutive
connectivity failures make the insert consume two distinct connections and
propagate the second failure. -/
theorem insert_retry_once_witness :
    ∃ c1 c2, c1 ≠ c2
      ∧ (insert_into_db ⟨none, 0⟩ ExecResult.connError ExecResult.connError).attempts
          = [c1, c2]
      ∧ (insert_into_db ⟨none, 0⟩ ExecResult.connError ExecResult.connError).final.conn
          = some c2
      ∧ (ExecResult.connError = ExecResult.ok →
          (insert_into_db ⟨none, 0⟩ ExecResult.connError ExecResult.connError).raised = false)
      ∧ (ExecResult.connError ≠ ExecResult.ok →
          (insert_into_db ⟨none, 0⟩ ExecResult.connError ExecResult.connError).raised = true) :=
  (insert_retry_once ⟨none, 0⟩ ExecResult.connError ExecResult.connError
    (fun _ hg => Option.noConfusion hg)).2 rfl

/-- C9 (evaluating the code at the failing input): a device reporting only
`t2` — `t1` absent — passes the `if t1 is None and t2 is None` guard, so
`fetch_data` inserts a Measurement whose primary temperature `t1` is null,
contradicting the required (non-nullable) `t1` of the schema and of
`insert_into_db`'s own signature. -/
theorem t2_only_inserted_null_t1 :
    fetch_data ["09E6F8C4D2AB"]
      (HttpOutcome.response 200
        ⟨some true, some [⟨some "09E6F8C4D2AB", some ⟨some 1700000000, none, some 21⟩⟩],
          false⟩)
      (fun _ => false)
    = ⟨1, [⟨1700000000, "09E6F8C4D2AB", none, some 21⟩], false⟩ := by
  rfl

/-- Helper: the device loop is a filterMap over the indexed device list —
each device's contribution depends only on that device and its own injected
insert outcome, so no device can abort its siblings. -/
theorem deviceLoop_eq_filterMap (f : Nat → Bool) (ds : List Device) :
    ∀ i, deviceLoop f i ds
      = (List.enumFrom i ds).filterMap (fun p => processDevice (f p.1) p.2) := by
  induction ds with
  | nil => intro i; rfl
  | cons d rest ih =>
    intro i
    rw [List.enumFrom_cons, List.filterMap_cons]
    cases hp : processDevice (f i) d <;>
      simp [deviceLoop, hp, ih (i + 1)]

/-- C6: device-level failure isolation. The device loop treats every device
independently (a filterMap over the indexed list); a device missing its id
or timestamp is skipped, as is a device with both temperature fields
absent; an exception raised while processing one device (injected at index
1 in the last conjunct) is caught and the remaining devices are still
processed. In particular, three devices of which one lacks a timestamp
yield exactly two inserted Measurements with the cycle completing normally. -/
theorem device_isolation :
    (∀ f ds, deviceLoop f 0 ds
        = ds.enum.filterMap (fun p => processDevice (f p.1) p.2))
    ∧ (∀ b d, d.deviceid = none ∨ (d.measurement.getD emptyMeasurement).ts = none →
        processDevice b d = none)
    ∧ (∀ b d, (d.measurement.getD emptyMeasurement).t1 = none →
        (d.measurement.getD emptyMeasurement).t2 = none → processDevice b d = none)
    ∧ fetch_data ["sensorA"]
        (HttpOutcome.response 200
          ⟨some true,
            some [⟨some "AAA", some ⟨some 1000, some 20, some 21⟩⟩,
              ⟨some "BBB", some ⟨none, some 20, none⟩⟩,
              ⟨some "CCC", some ⟨some 2000, some 22, none⟩⟩],
            false⟩)
        (fun _ => false)
      = ⟨1, [⟨1000, "AAA", some 20, some 21⟩, ⟨2000, "CCC", some 22, none⟩], false⟩
    ∧ deviceLoop (fun i => decide (i = 1)) 0
        [⟨some "AAA", some ⟨some 1, some 10, none⟩⟩,
          ⟨some "BBB", some ⟨some 2, some 11, none⟩⟩,
          ⟨some "CCC", some ⟨some 3, some 12, none⟩⟩]
      = [⟨1, "AAA", some 10, none⟩, ⟨3, "CCC", some 12, none⟩] := by
  refine ⟨fun f ds => deviceLoop_eq_filterMap f ds 0, fun b d h => ?_, fun b d h1 h2 => ?_,
    rfl, rfl⟩
  · rcases h with h | h
    · simp [processDevice, h]
    · simp only [processDevice, h]
      rcases d.deviceid with _ | dev_id <;> rfl
  · simp only [processDevice, h1, h2]
    rcases d.deviceid with _ | dev_id <;>
      rcases hts : (d.measurement.getD emptyMeasurement).ts with _ | ts <;> rfl

/-- C7: cycle-level fetch failure is absorbed with zero effect. At most one
outbound HTTP request is issued per cycle; no exception ever escapes
`fetch_data`; and on a network-level failure (request exception or non-200
status), or when the parsed body lacks a truthy `success` flag, nothing is
inserted. -/
theorem cycle_failure_absorbed (sensor_ids : List String) (http : HttpOutcome)
    (insertRaises : Nat → Bool) :
    (fetch_data sensor_ids http insertRaises).requests ≤ 1
    ∧ (fetch_data sensor_ids http insertRaises).raised = false
    ∧ (http = HttpOutcome.requestException →
        (fetch_data sensor_ids http insertRaises).inserted = [])
    ∧ (∀ status body, http = HttpOutcome.response status body → status ≠ 200 →
        (fetch_data sensor_ids http insertRaises).inserted = [])
    ∧ (∀ status body, http = HttpOutcome.response status body →
        body.success ≠ some true →
        (fetch_data sensor_ids http insertRaises).inserted = []) := by
  by_cases hs : sensor_ids.isEmpty
  · rcases http with _ | ⟨status, body⟩ <;>
      simp [fetch_data, fetchLatestMeasurements, hs]
  · rcases http with _ | ⟨status, body⟩
    · simp [fetch_data, fetchLatestMeasurements, hs]
    · by_cases h200 : status = 200
      · subst h200
        by_cases hsucc : body.success = some true
        · by_cases htr : body.truthy
          · rcases hd : body.devices.getD [] with _ | ⟨d, devices⟩ <;>
              simp [fetch_data, fetchLatestMeasurements, hs, hsucc, htr, hd]
          · simp [fetch_data, fetchLatestMeasurements, hs, htr]
        · by_cases htr : body.truthy <;>
            simp [fetch_data, fetchLatestMeasurements, hs, hsucc, htr]
      · simp [fetch_data, fetchLatestMeasurements, hs, h200]

end Fetcher

namespace Healthcheck

/-- Helper: the probe's recent-sensor count is positive exactly when some
configured sensor has a recorded latest time at most the threshold old. -/
theorem recentCount_pos_iff (latest : String → Option LastTs) (now : Int)
    (sensors : List String) :
    0 < recentCount latest now sensors ↔
      ∃ s ∈ sensors, ∃ t, latest s = some t ∧ now - toUtcVal t ≤ thresholdSeconds := by
  induction sensors with
  | nil => simp [recentCount]
  | cons a rest ih =>
    cases hl : latest a with
    | none =>
      have hr : recentCount latest now (a :: rest) = recentCount latest now rest := by
        simp [recentCount, hl]
      rw [hr, ih]
      constructor
      · rintro ⟨s, hs, ht⟩
        exact ⟨s, List.mem_cons_of_mem _ hs, ht⟩
      · rintro ⟨s, hs, t, hlt, hle⟩
        rcases List.mem_cons.mp hs with rfl | hs
        · rw [hl] at hlt; cases hlt
        · exact ⟨s, hs, t, hlt, hle⟩
    | some t =>
      by_cases hage : now - toUtcVal t ≤ thresholdSeconds
      · have hr : recentCount latest now (a :: rest)
            = recentCount latest now rest + 1 := by
          simp [recentCount, hl, hage]
        rw [hr]
        exact iff_of_true (Nat.succ_pos _) ⟨a, List.mem_cons_self a rest, t, hl, hage⟩
      · have hr : recentCount latest now (a :: rest) = recentCount latest now rest := by
          simp [recentCount, hl, hage]
        rw [hr, ih]
        constructor
        · rintro ⟨s, hs, ht⟩
          exact ⟨s, List.mem_cons_of_mem _ hs, ht⟩
        · rintro ⟨s, hs, u, hlt, hle⟩
          rcases List.mem_cons.mp hs with rfl | hs
          · rw [hl] at hlt
            cases hlt
            exact absurd hle hage
          · exact ⟨s, hs, u, hlt, hle⟩

/-- C3: the staleness probe's exit status is fully characterized. It exits 0
iff the configured sensor list is empty (and then issues no query at all) or
at least one configured sensor has a recorded latest time at most 30 minutes
old (a sensor with no rows counts as stale; a naive latest time is read as
UTC); with a non-empty sensor list it issues one query per sensor; and the
exit status is always 0 or 1 — every other case exits 1. -/
theorem probe_exit_characterized (sensors : List String)
    (latest : String → Option LastTs) (now : Int) :
    ((probeMain sensors latest now).1 = 0 ↔
      sensors = [] ∨ ∃ s ∈ sensors, ∃ t, latest s = some t
        ∧ now - toUtcVal t ≤ thresholdSeconds)
    ∧ (sensors = [] → probeMain sensors latest now = (0, 0))
    ∧ (sensors ≠ [] → (probeMain sensors latest now).2 = sensors.length)
    ∧ ((probeMain sensors latest now).1 = 0 ∨ (probeMain sensors latest now).1 = 1) := by
  cases sensors with
  | nil =>
    refine ⟨?_, fun _ => rfl, fun h => absurd rfl h, Or.inl rfl⟩
    simp [probeMain]
  | cons a rest =>
    have hp : probeMain (a :: rest) latest now
        = if recentCount latest now (a :: rest) > 0
          then (0, (a :: rest).length) else (1, (a :: rest).length) := rfl
    by_cases hpos : recentCount latest now (a :: rest) > 0
    · rw [hp, if_pos hpos]
      exact ⟨iff_of_true rfl (Or.inr ((recentCount_pos_iff latest now _).mp hpos)),
        fun h => absurd h (List.cons_ne_nil a rest), fun _ => rfl, Or.inl rfl⟩
    · rw [hp, if_neg hpos]
      refine ⟨?_, fun h => absurd h (List.cons_ne_nil a rest), fun _ => rfl, Or.inr rfl⟩
      constructor
      · intro h; cases h
      · rintro (h | hex)
        · cases h
        · exact absurd ((recentCount_pos_iff latest now _).mpr hex) hpos

end Healthcheck

/-- C4 counterexample: a connection-acquisition failure caused by invalid
credentials (an authentication exception on the syncer's first connect
attempt, attempt index 1) is caught by the bare `except Exception` of the
syncer's `get_db_connection` and retried; the second attempt succeeds and
the process carries on — the authentication failure neither terminates the
process nor goes unretried. -/
theorem auth_failure_retried :
    RoomSync.get_db_connection
      (fun i => if i = 1 then RoomSync.SyncConnAttempt.exc true
        else RoomSync.SyncConnAttempt.success)
      = Except.ok 2 := by
  rfl

/-- C4 (amended): missing credentials are fatal without retry where they are
checked — the probe exits 1 with zero connect attempts, and the syncer exits
2 before any connection attempt; the probe also exits 1 after a single
failed connect attempt, retrying nothing. At connection-acquisition time,
however, failures are retried without distinguishing authentication from
connectivity: the fetcher's loop retries every `OperationalError` —
authentication failures included — indefinitely, and the syncer's loop
retries every exception, succeeding if a later attempt does. -/
theorem cred_failure_policy_amended :
    (∀ name user pass a,
        (falsyStr name || falsyStr user || falsyStr pass) = true →
        Healthcheck.connect_db name user pass a = (Sum.inl 1, 0))
    ∧ (∀ name user pass auth,
        (falsyStr name || falsyStr user || falsyStr pass) = false →
        Healthcheck.connect_db name user pass (Fetcher.ConnAttempt.opError auth)
          = (Sum.inl 1, 1))
    ∧ (∀ name user pass,
        (falsyStr name || falsyStr user || falsyStr pass) = true →
        RoomSync.check_env_vars name user pass = Except.error 2)
    ∧ (∀ k auth rest,
        Fetcher.connectLoop (List.replicate k (Fetcher.ConnAttempt.opError auth)
          ++ Fetcher.ConnAttempt.success :: rest) = some (k + 1))
    ∧ (∀ attempts auth, attempts 1 = RoomSync.SyncConnAttempt.exc auth →
        attempts 2 = RoomSync.SyncConnAttempt.success →
        RoomSync.get_db_connection attempts = Except.ok 2) := by
  refine ⟨fun name user pass a h => by simp [Healthcheck.connect_db, h],
    fun name user pass auth h => by simp [Healthcheck.connect_db, h],
    fun name user pass h => by simp [RoomSync.check_env_vars, h],
    fun k auth rest => ?_, fun attempts auth h1 h2 => ?_⟩
  · induction k with
    | zero => rfl
    | succ n ih => simp [List.replicate_succ, Fetcher.connectLoop, ih]
  · show RoomSync.connAttemptLoop attempts 1 12 = Except.ok 2
    rw [show (12 : Nat) = 10 + 2 from rfl, RoomSync.connAttemptLoop, h1]
    rw [show (10 + 1 : Nat) = 9 + 2 from rfl, RoomSync.connAttemptLoop, h2]

namespace PyStr

/-- Helper: stripping a list of whitespace characters gives the empty list. -/
theorem strip_eq_nil_of_all_space (s : List Char) (h : ∀ c ∈ s, isSpace c = true) :
    strip s = [] := by
  unfold strip
  rw [List.dropWhile_eq_nil_iff.mpr h]
  rfl

/-- Helper: every character of every segment of `splitComma s` comes from
`s` and is not a comma. -/
theorem splitComma_chars (s : List Char) :
    ∀ seg ∈ splitComma s, ∀ c ∈ seg, c ∈ s ∧ c ≠ ',' := by
  induction s with
  | nil =>
    intro seg hseg c hc
    simp only [splitComma, List.mem_singleton] at hseg
    subst hseg
    cases hc
  | cons a rest ih =>
    intro seg hseg c hc
    by_cases ha : a = ','
    · simp only [splitComma, ha, beq_self_eq_true, if_pos] at hseg
      rcases List.mem_cons.mp hseg with rfl | hseg
      · cases hc
      · obtain ⟨hin, hnc⟩ := ih seg hseg c hc
        exact ⟨List.mem_cons_of_mem _ hin, hnc⟩
    · have hbeq : (a == ',') = false := by simp [ha]
      simp only [splitComma, hbeq, Bool.false_eq_true, if_neg, not_false_eq_true] at hseg
      cases hrest : splitComma rest with
      | nil =>
        rw [hrest] at hseg
        simp only [List.mem_singleton] at hseg
        subst hseg
        rcases List.mem_cons.mp hc with rfl | hc
        · exact ⟨List.mem_cons_self _ _, ha⟩
        · cases hc
      | cons seg0 segs =>
        rw [hrest] at hseg
        rcases List.mem_cons.mp hseg with rfl | hseg
        · rcases List.mem_cons.mp hc with rfl | hc
          · exact ⟨List.mem_cons_self _ _, ha⟩
          · obtain ⟨hin, hnc⟩ := ih seg0 (hrest ▸ List.mem_cons_self _ _) c hc
            exact ⟨List.mem_cons_of_mem _ hin, hnc⟩
        · obtain ⟨hin, hnc⟩ := ih seg (hrest ▸ List.mem_cons_of_mem _ hseg) c hc
          exact ⟨List.mem_cons_of_mem _ hin, hnc⟩

/-- C10: `parse_sensor_ids` normalizes its comma-separated input. It equals
the comma-split of the input with each segment whitespace-stripped and the
empty (whitespace-only) segments dropped; hence every returned id is a
stripped segment and never empty; an input consisting only of commas and
whitespace (the empty input included) yields `[]`; and the probe's copy of
the function computes exactly the same list. -/
theorem parse_sensor_ids_normalizes (s : List Char) :
    parse_sensor_ids s = ((splitComma s).map strip).filter (fun t => !t.isEmpty)
    ∧ (∀ id ∈ parse_sensor_ids s,
        (∃ seg ∈ splitComma s, id = strip seg) ∧ id ≠ [])
    ∧ ((∀ c ∈ s, c = ',' ∨ isSpace c = true) → parse_sensor_ids s = [])
    ∧ healthcheck_parse_sensor_ids s = parse_sensor_ids s := by
  have hnorm : parse_sensor_ids s
      = ((splitComma s).map strip).filter (fun t => !t.isEmpty) := by
    by_cases hs : s = []
    · subst hs; rfl
    · simp [parse_sensor_ids, hs]
  refine ⟨hnorm, fun id hid => ?_, fun hcs => ?_, rfl⟩
  · rw [hnorm] at hid
    obtain ⟨hmem, hne⟩ := List.mem_filter.mp hid
    obtain ⟨seg, hseg, hstrip⟩ := List.mem_map.mp hmem
    refine ⟨⟨seg, hseg, hstrip.symm⟩, ?_⟩
    intro hnil
    rw [hnil] at hne
    cases hne
  · rw [hnorm]
    rw [List.filter_eq_nil_iff]
    intro t ht
    obtain ⟨seg, hseg, hstrip⟩ := List.mem_map.mp ht
    have hsp : ∀ c ∈ seg, isSpace c = true := by
      intro c hc
      obtain ⟨hin, hnc⟩ := splitComma_chars s seg hseg c hc
      rcases hcs c hin with rfl | hsp
      · exact absurd rfl hnc
      · exact hsp
    rw [← hstrip, strip_eq_nil_of_all_space seg hsp]
    simp

end PyStr
